import Mathlib

set_option maxRecDepth 8192

namespace Pumpkin

/-! Shallow embedding of the connection core of the Pumpkin server:
`src/pumpkin/src/client/mod.rs`, `src/pumpkin/src/main.rs` and
`src/pumpkin/src/world/mod.rs`.  Machine integers are modelled as `Nat`,
byte buffers as `List Nat` (each element one byte).  Fallible operations
return `Except`/`Option`; interior mutability becomes explicit state
passing on the `Client` structure. -/

/-- Connection phases of the protocol (`pumpkin_protocol::ConnectionState`,
declared outside `src/`; the spec lists exactly these six states). -/
inductive ConnectionState
  | HandShake
  | Status
  | Login
  | Transfer
  | Config
  | Play
  deriving DecidableEq, Repr

/-- A peer or bind socket address (`std::net::SocketAddr`), modelled as an
ip/port pair of naturals. -/
structure SocketAddr where
  ip : Nat
  port : Nat
  deriving DecidableEq, Repr

/-- A decoded frame (`pumpkin_protocol::RawPacket`): a packet id and the
payload bytes. -/
structure RawPacket where
  id : Nat
  payload : List Nat
  deriving DecidableEq, Repr

/-- `entity::player::ChatMode` as used by `PlayerConfig`. -/
inductive ChatMode
  | Enabled
  | CommandsOnly
  | Hidden
  deriving DecidableEq, Repr

/-- `entity::player::Hand` as used by `PlayerConfig`. -/
inductive Hand
  | Main
  | Off
  deriving DecidableEq, Repr

/-- `client/mod.rs` `PlayerConfig`. -/
structure PlayerConfig where
  locale : String
  view_distance : Int
  chat_mode : ChatMode
  chat_colors : Bool
  skin_parts : Nat
  main_hand : Hand
  text_filtering : Bool
  server_listing : Bool
  deriving DecidableEq, Repr

/-- `impl Default for PlayerConfig` in `client/mod.rs`. -/
def PlayerConfig.default : PlayerConfig :=
  { locale := "en_us"
    view_distance := 2
    chat_mode := ChatMode.Enabled
    chat_colors := true
    skin_parts := 0
    main_hand := Hand.Main
    text_filtering := false
    server_listing := false }

/-- `authentication::GameProfile`: uuid, name, signed properties. -/
structure GameProfile where
  uuid : Nat
  name : String
  properties : List (String × String × Option String)
  deriving DecidableEq, Repr

/-- The state of the inbound codec half (`pumpkin_protocol::PacketDecoder`,
declared outside `src/`): optional cipher key, optional compression
threshold, and the staging byte buffer. -/
structure PacketDecoderState where
  key : Option (List Nat)
  compression : Option Nat
  buf : List Nat
  deriving DecidableEq, Repr

/-- The state of the outbound codec half (`pumpkin_protocol::PacketEncoder`,
declared outside `src/`): optional cipher key and optional
(threshold, level) compression setting. -/
structure PacketEncoderState where
  key : Option (List Nat)
  compression : Option (Nat × Nat)
  deriving DecidableEq, Repr

/-- The `Client` struct of `client/mod.rs`: per-connection state.  The
TCP read/write halves are external I/O resources and are not part of the
modelled state; everything else is carried over field by field. -/
structure Client where
  gameprofile : Option GameProfile
  config : Option PlayerConfig
  brand : Option String
  protocol_version : Int
  connection_state : ConnectionState
  encryption : Bool
  closed : Bool
  id : Nat
  address : SocketAddr
  enc : PacketEncoderState
  dec : PacketDecoderState
  client_packets_queue : List RawPacket
  make_player : Bool
  deriving DecidableEq, Repr

/-- `Client::new(id, connection, address)` (`client/mod.rs` lines 125-144). -/
def Client.new (id : Nat) (address : SocketAddr) : Client :=
  { gameprofile := none
    config := none
    brand := none
    protocol_version := 0
    connection_state := ConnectionState.HandShake
    encryption := false
    closed := false
    id := id
    address := address
    enc := { key := none, compression := none }
    dec := { key := none, compression := none, buf := [] }
    client_packets_queue := []
    make_player := false }

/-- `Client::add_packet` (lines 147-150): push the raw packet onto the back
of `client_packets_queue` (Rust `Vec::push`). -/
def add_packet (c : Client) (packet : RawPacket) : Client :=
  { c with client_packets_queue := c.client_packets_queue ++ [packet] }

/-- `Client::close` (lines 384-387): store `true` into the closed flag. -/
def close (c : Client) : Client :=
  { c with closed := true }

/-- `EncryptionError` of `client/mod.rs`. -/
inductive EncryptionError
  | FailedDecrypt
  | SharedWrongLength
  deriving DecidableEq, Repr

/-- `Client::enable_encryption` (lines 153-165).  The source stores `true`
into the `encryption` flag first, then converts the slice to a 16-byte
array (an error here returns early with `SharedWrongLength`), then
installs the key in decoder and encoder. -/
def enable_encryption (c : Client) (shared_secret : List Nat) :
    Client × Except EncryptionError Unit :=
  let c1 := { c with encryption := true }
  if shared_secret.length = 16 then
    ({ c1 with
        dec := { c1.dec with key := some shared_secret }
        enc := { c1.enc with key := some shared_secret } },
      Except.ok ())
  else
    (c1, Except.error EncryptionError.SharedWrongLength)

/-- `Client::set_compression` (lines 168-171): the decoder half receives
only the threshold, the encoder half the (threshold, level) pair. -/
def set_compression (c : Client) (compression : Option (Nat × Nat)) : Client :=
  { c with
      dec := { c.dec with compression := compression.map Prod.fst }
      enc := { c.enc with compression := compression } }

/-- Model of `serde_json::to_string_pretty` applied to a `&str`: the
string wrapped in quotes with quote and backslash escaped. -/
def jsonEscapeChar (ch : Char) : String :=
  if ch = '"' then "\\\""
  else if ch = '\\' then "\\\\"
  else String.singleton ch

/-- JSON serialization of a reason string, as used by `kick` in the
`Login` state. -/
def jsonEncode (s : String) : String :=
  "\"" ++ String.join (s.toList.map jsonEscapeChar) ++ "\""

/-- The clientbound disconnect packets a `kick` may attempt to send. -/
inductive DisconnectPacket
  | loginDisconnect (json : String)
  | configDisconnect (reason : String)
  | playDisconnect (text : String)
  deriving DecidableEq, Repr

/-- Result of `Client::kick`: the client state afterwards, the disconnect
packet that was attempted (if the state has one), and whether it was
actually delivered (`sendOk` models the success of `try_send_packet`). -/
structure KickResult where
  client : Client
  attempted : Option DisconnectPacket
  delivered : Bool
  deriving DecidableEq, Repr

/-- `Client::kick` (lines 358-381): dispatch on the connection state to
pick the disconnect packet (Login: JSON-encoded reason, Config: plain
reason, Play: `TextComponent::text(reason)`; other states only log a
warning), attempt to send it (a send failure calls `close`), then always
call `close`. -/
def kick (c : Client) (reason : String) (sendOk : Bool) : KickResult :=
  let attempted : Option DisconnectPacket :=
    match c.connection_state with
    | ConnectionState.Login =>
        some (DisconnectPacket.loginDisconnect (jsonEncode reason))
    | ConnectionState.Config =>
        some (DisconnectPacket.configDisconnect reason)
    | ConnectionState.Play =>
        some (DisconnectPacket.playDisconnect reason)
    | _ => none
  { client := close c
    attempted := attempted
    delivered := attempted.isSome && sendOk }

/-- `Client::send_packet` (lines 174-184): append to the encoder (an
encode failure kicks with the error text), then write the bytes (a write
failure kicks).  `encodeOk`/`writeOk` model the success of the two
fallible steps; the bytes themselves leave the modelled state. -/
def send_packet (c : Client) (encodeOk writeOk : Bool) : Client :=
  let c1 := if encodeOk then c else (kick c ("packet encode error") false).client
  if writeOk then c1 else (kick c1 ("connection write error") false).client

/-- Outcome of reading one VarInt: a value with the unconsumed rest,
`incomplete` when the buffer ran out, `malformed` past the 5-byte cap. -/
inductive VarNumOut
  | val (v : Nat) (rest : List Nat)
  | incomplete
  | malformed
  deriving DecidableEq, Repr

/-- Modelled from the spec: VarInt decoding of the protocol crate
(`pumpkin_protocol` is part of this repository but not under `src/`).
"7-bit little-endian groups, high bit = continuation, max 5 bytes";
the fuel argument enforces the 5-byte cap. -/
def readVarNumAux : Nat → List Nat → VarNumOut
  | 0, _ => VarNumOut.malformed
  | _ + 1, [] => VarNumOut.incomplete
  | fuel + 1, b :: rest =>
    if b < 128 then VarNumOut.val b rest
    else
      match readVarNumAux fuel rest with
      | VarNumOut.val v r => VarNumOut.val (b % 128 + v * 128) r
      | o => o

/-- Modelled from the spec: read one VarInt (at most 5 bytes) from the
front of a buffer. -/
def readVarNum (bytes : List Nat) : VarNumOut :=
  readVarNumAux 5 bytes

/-- Split off exactly `n` bytes, or `none` when fewer are available. -/
def splitAtExact : Nat → List Nat → Option (List Nat × List Nat)
  | 0, rest => some ([], rest)
  | _ + 1, [] => none
  | n + 1, b :: rest =>
    match splitAtExact n rest with
    | some (xs, ys) => some (b :: xs, ys)
    | none => none

/-- Outcome of `PacketDecoder::decode`: one parsed frame with the
unconsumed rest of the buffer, an incomplete frame (the `None` of the
decoder contract), or a decode error. -/
inductive DecodeOut
  | packet (p : RawPacket) (rest : List Nat)
  | incomplete
  | err
  deriving DecidableEq, Repr

/-- Modelled from the spec: `PacketDecoder::decode` in the plain
(uncompressed, unencrypted) framing `len:VarInt | id:VarInt | payload`. -/
def decode (buf : List Nat) : DecodeOut :=
  match readVarNum buf with
  | VarNumOut.incomplete => DecodeOut.incomplete
  | VarNumOut.malformed => DecodeOut.err
  | VarNumOut.val len rest =>
    match splitAtExact len rest with
    | none => DecodeOut.incomplete
    | some (body, rest2) =>
      match readVarNum body with
      | VarNumOut.val pid payload =>
        DecodeOut.packet { id := pid, payload := payload } rest2
      | _ => DecodeOut.err

/-- The spec-described decode loop: call `decode` repeatedly until it
yields `None`, collecting every packet (fuel-bounded; one byte of fuel
per buffer byte suffices since each frame consumes at least one byte). -/
def decodeAll : Nat → List Nat → List RawPacket
  | 0, _ => []
  | fuel + 1, buf =>
    match decode buf with
    | DecodeOut.packet p rest => p :: decodeAll fuel rest
    | _ => []

/-- One read completion observed by `Client::poll`: `ok bytes` is
`Ok(n)` delivering those fresh bytes (`ok []` is `Ok(0)`), the rest are
the three error classes the source distinguishes. -/
inductive ReadEvent
  | ok (bytes : List Nat)
  | wouldBlock
  | interrupted
  | otherErr
  deriving DecidableEq, Repr

/-- The bytes `poll` hands to `dec.queue_slice` after a successful read of
`bytes` into the scratch buffer `scratch` (`client/mod.rs` lines 332-336):
the read overwrites the first `n` bytes of the scratch buffer, then the
source appends `n` zero bytes (`received_data.extend(&vec![0; n])`) and
queues the entire buffer. -/
def pollFedOnRead (scratch : List Nat) (bytes : List Nat) : List Nat :=
  (bytes ++ scratch.drop bytes.length) ++ List.replicate bytes.length 0

/-- One iteration of the `poll` loop body (lines 325-353), given the
current scratch buffer and the read result.  Returns the new client, the
new scratch buffer, and whether the loop `break`s.  On `Ok(n)` the whole
scratch buffer is queued, `decode` is called exactly once (a decode error
kicks), at most one packet is enqueued, and `dec.clear()` empties the
staging buffer. -/
def pollStep (c : Client) (scratch : List Nat) (sendOk : Bool) (ev : ReadEvent) :
    Client × List Nat × Bool :=
  match ev with
  | ReadEvent.ok [] => (close c, scratch, true)
  | ReadEvent.ok bytes =>
    let scratch2 := pollFedOnRead scratch bytes
    let buf := c.dec.buf ++ scratch2
    let c2 :=
      match decode buf with
      | DecodeOut.packet p _ => add_packet c p
      | DecodeOut.incomplete => c
      | DecodeOut.err => (kick c ("decode error") sendOk).client
    ({ c2 with dec := { c2.dec with buf := [] } }, scratch2, false)
  | ReadEvent.wouldBlock => (c, scratch, true)
  | ReadEvent.interrupted => (c, scratch, false)
  | ReadEvent.otherErr => (close c, scratch, false)

/-- The `poll` loop over a list of read events: `while !closed { ... }`,
stopping early on the branches that `break`. -/
def pollGo (sendOk : Bool) : Client → List Nat → List ReadEvent → Client
  | c, _, [] => c
  | c, scratch, ev :: rest =>
    if c.closed then c
    else
      match pollStep c scratch sendOk ev with
      | (c2, _, true) => c2
      | (c2, scratch2, false) => pollGo sendOk c2 scratch2 rest

/-- `Client::poll` (lines 320-355): the scratch buffer starts as
`vec![0; 4096]`. -/
def poll (c : Client) (sendOk : Bool) (events : List ReadEvent) : Client :=
  pollGo sendOk c (List.replicate 4096 0) events

/-- Names for the eleven pre-Play packet handlers dispatched by
`Client::handle_packet`. -/
inductive HandlerId
  | handshake
  | statusRequest
  | pingRequest
  | loginStart
  | encryptionResponse
  | pluginResponse
  | loginAcknowledged
  | clientInformationConfig
  | pluginMessage
  | acknowledgeFinishConfig
  | knownPacks
  deriving DecidableEq, Repr

/-- `pumpkin_protocol::bytebuf::DeserializerError`: failure of a packet
body `read`. -/
inductive DeserializerError
  | malformed (msg : String)
  deriving DecidableEq, Repr

/-- The handler bodies (`client_packet.rs`, not under `src/`) abstracted
as state transformers: a handler either fails to deserialize the body
(in the source the `read(bytebuf)?` fails before the handler runs, so
the client is unchanged) or returns the mutated client. -/
def Handlers : Type :=
  HandlerId → Client → RawPacket → Except DeserializerError Client

/-- Handlers that deserialize successfully and change nothing. -/
def trivialHandlers : Handlers :=
  fun _ c _ => Except.ok c

/-- `SHandShake::PACKET_ID` (spec table: 0x00). -/
def sHandShakeId : Nat := 0

/-- `SStatusRequest::PACKET_ID` (spec table: 0x00). -/
def sStatusRequestId : Nat := 0

/-- `SStatusPingRequest::PACKET_ID` (spec table: 0x01). -/
def sStatusPingRequestId : Nat := 1

/-- `SLoginStart::PACKET_ID` (spec table: 0x00). -/
def sLoginStartId : Nat := 0

/-- `SEncryptionResponse::PACKET_ID` (spec table: 0x01). -/
def sEncryptionResponseId : Nat := 1

/-- `SLoginPluginResponse::PACKET_ID` (spec table: 0x02). -/
def sLoginPluginResponseId : Nat := 2

/-- `SLoginAcknowledged::PACKET_ID` (spec table: 0x03). -/
def sLoginAcknowledgedId : Nat := 3

/-- Modelled from the spec: `SClientInformationConfig::PACKET_ID`
(the spec's Config row says only "varies"; the protocol value 0x00 is
used, the claims below never depend on the concrete value). -/
def sClientInformationConfigId : Nat := 0

/-- Modelled from the spec: `SPluginMessage::PACKET_ID` (protocol value
0x02). -/
def sPluginMessageId : Nat := 2

/-- Modelled from the spec: `SAcknowledgeFinishConfig::PACKET_ID`
(protocol value 0x03). -/
def sAcknowledgeFinishConfigId : Nat := 3

/-- Modelled from the spec: `SKnownPacks::PACKET_ID` (protocol value
0x07). -/
def sKnownPacksId : Nat := 7

/-- The inbound packet-ID table of each state, as matched by
`Client::handle_packet` (lines 213-316). -/
def idTable : ConnectionState → List Nat
  | ConnectionState.HandShake => [sHandShakeId]
  | ConnectionState.Status => [sStatusRequestId, sStatusPingRequestId]
  | ConnectionState.Login =>
    [sLoginStartId, sEncryptionResponseId, sLoginPluginResponseId,
      sLoginAcknowledgedId]
  | ConnectionState.Transfer =>
    [sLoginStartId, sEncryptionResponseId, sLoginPluginResponseId,
      sLoginAcknowledgedId]
  | ConnectionState.Config =>
    [sClientInformationConfigId, sPluginMessageId,
      sAcknowledgeFinishConfigId, sKnownPacksId]
  | ConnectionState.Play => []

/-- `Client::handle_packet` (lines 213-316): match on the connection
state, then on the packet id; a known id deserializes the body and runs
the handler (a deserialization error propagates with the client
unchanged), an unknown id (and the whole `Play`/fallthrough arm) only
logs and returns `Ok`.  The second component records which handler was
invoked. -/
def handle_packet (H : Handlers) (c : Client) (p : RawPacket) :
    Except DeserializerError Client × Option HandlerId :=
  match c.connection_state with
  | ConnectionState.HandShake =>
    if p.id = sHandShakeId then
      (H HandlerId.handshake c p, some HandlerId.handshake)
    else (Except.ok c, none)
  | ConnectionState.Status =>
    if p.id = sStatusRequestId then
      (H HandlerId.statusRequest c p, some HandlerId.statusRequest)
    else if p.id = sStatusPingRequestId then
      (H HandlerId.pingRequest c p, some HandlerId.pingRequest)
    else (Except.ok c, none)
  | ConnectionState.Login =>
    if p.id = sLoginStartId then
      (H HandlerId.loginStart c p, some HandlerId.loginStart)
    else if p.id = sEncryptionResponseId then
      (H HandlerId.encryptionResponse c p, some HandlerId.encryptionResponse)
    else if p.id = sLoginPluginResponseId then
      (H HandlerId.pluginResponse c p, some HandlerId.pluginResponse)
    else if p.id = sLoginAcknowledgedId then
      (H HandlerId.loginAcknowledged c p, some HandlerId.loginAcknowledged)
    else (Except.ok c, none)
  | ConnectionState.Transfer =>
    if p.id = sLoginStartId then
      (H HandlerId.loginStart c p, some HandlerId.loginStart)
    else if p.id = sEncryptionResponseId then
      (H HandlerId.encryptionResponse c p, some HandlerId.encryptionResponse)
    else if p.id = sLoginPluginResponseId then
      (H HandlerId.pluginResponse c p, some HandlerId.pluginResponse)
    else if p.id = sLoginAcknowledgedId then
      (H HandlerId.loginAcknowledged c p, some HandlerId.loginAcknowledged)
    else (Except.ok c, none)
  | ConnectionState.Config =>
    if p.id = sClientInformationConfigId then
      (H HandlerId.clientInformationConfig c p,
        some HandlerId.clientInformationConfig)
    else if p.id = sPluginMessageId then
      (H HandlerId.pluginMessage c p, some HandlerId.pluginMessage)
    else if p.id = sAcknowledgeFinishConfigId then
      (H HandlerId.acknowledgeFinishConfig c p,
        some HandlerId.acknowledgeFinishConfig)
    else if p.id = sKnownPacksId then
      (H HandlerId.knownPacks c p, some HandlerId.knownPacks)
    else (Except.ok c, none)
  | ConnectionState.Play => (Except.ok c, none)

/-- `Vec::pop`: remove and return the LAST element. -/
def vecPop : List α → Option (α × List α)
  | [] => none
  | [a] => some (a, [])
  | a :: b :: rest =>
    match vecPop (b :: rest) with
    | some (x, front) => some (x, a :: front)
    | none => none

/-- The loop of `Client::process_packets` (lines 199-210):
`while let Some(packet) = queue.pop()` — pop from the BACK of the Vec —
dispatch through `handle_packet`; a handler error is logged and kicks
the connection, and the loop then continues.  Fuel is the initial queue
length (the modelled handlers do not touch the queue).  Also returns the
dispatch order. -/
def process_fuel (H : Handlers) (sendOk : Bool) :
    Nat → Client → Client × List RawPacket
  | 0, c => (c, [])
  | fuel + 1, c =>
    match vecPop c.client_packets_queue with
    | none => (c, [])
    | some (p, rest) =>
      let c1 := { c with client_packets_queue := rest }
      match (handle_packet H c1 p).1 with
      | Except.ok c2 =>
        let r := process_fuel H sendOk fuel c2
        (r.1, p :: r.2)
      | Except.error _ =>
        let r := process_fuel H sendOk fuel
          (kick c1 ("Error while reading incoming packet") sendOk).client
        (r.1, p :: r.2)

/-- `Client::process_packets`: drain the queue. -/
def process_packets (H : Handlers) (sendOk : Bool) (c : Client) : Client :=
  (process_fuel H sendOk c.client_packets_queue.length c).1

/-- The order in which `process_packets` dispatches the queued packets. -/
def process_trace (H : Handlers) (sendOk : Bool) (c : Client) : List RawPacket :=
  (process_fuel H sendOk c.client_packets_queue.length c).2

/-! World broadcast fabric (`world/mod.rs`).  The live-player map
(`current_players: HashMap<u32, Arc<Player>>`) is modelled as an
association list of (token, player) pairs with unique keys; a send of the
broadcast packet is recorded as the recipient's token. -/

/-- The keys of an association list. -/
def keysOf (m : List (Nat × α)) : List Nat :=
  m.map Prod.fst

/-- `World::broadcast_packet_all` (lines 56-64): iterate the live-player
map and send the packet to every player; the result is the list of
recipient tokens, one entry per send. -/
def broadcast_packet_all (players : List (Nat × α)) : List Nat :=
  players.map Prod.fst

/-- `World::broadcast_packet_expect` (lines 71-79): iterate the
live-player map filtered on `!except.contains(key)` and send to each
remaining player. -/
def broadcast_packet_expect (except : List Nat) (players : List (Nat × α)) :
    List Nat :=
  (players.filter (fun kv => !(except.contains kv.fst))).map Prod.fst

/-- `HashMap::remove`: take out the entry with the given key, returning
the value and the remaining map, or `none` when the key is absent (on an
association list with unique keys). -/
def hmRemove : List (Nat × α) → Nat → Option (α × List (Nat × α))
  | [], _ => none
  | (k, v) :: rest, key =>
    if k = key then some (v, rest)
    else
      match hmRemove rest key with
      | some (v2, rest2) => some (v2, (k, v) :: rest2)
      | none => none

/-- `World::remove_player` (lines 286-297), map part:
`current_players.lock().remove(&player.client.id).unwrap()` — an absent
key makes the `unwrap` panic (modelled as the error case). -/
def remove_player (m : List (Nat × α)) (id : Nat) :
    Except String (List (Nat × α)) :=
  match hmRemove m id with
  | some (_, m2) => Except.ok m2
  | none => Except.error ("called Option unwrap on a None value")

/-! Accept loop and promotion sequence (`main.rs`). -/

/-- One iteration of the accept loop (`main.rs` lines 106-122): the
source binds `addr = BASIC_CONFIG.server_address` (line 62), accepts
`(socket, address)` (line 107), and then constructs
`Client::new(token, socket, addr)` (line 120) — passing the BIND address,
not the accepted peer address. -/
def acceptClient (bindAddr : SocketAddr) (peerAddr : SocketAddr) (token : Nat) :
    Client :=
  let _ := peerAddr
  Client.new token bindAddr

/-- The observable states of the two registries during the promotion
sequence (`main.rs` lines 162-171), as (pending tokens, live tokens):
the initial state, the state after `clients.remove(&token)` (line 163),
and the state after `players.lock().unwrap().insert(token, player)`
(line 168). -/
def promotionSteps (pending live : List Nat) (token : Nat) :
    List (List Nat × List Nat) :=
  [(pending, live),
    (pending.erase token, live),
    (pending.erase token, token :: live)]

/-- Whether a token is in at least one of the two registries of a step. -/
def tokenInSome (token : Nat) (s : List Nat × List Nat) : Bool :=
  s.1.contains token || s.2.contains token

/-- Whether a token is in both registries of a step. -/
def tokenInBoth (token : Nat) (s : List Nat × List Nat) : Bool :=
  s.1.contains token && s.2.contains token

/-- The claim's atomicity property at a list of steps: at every step the
token is in at least one registry and never in both. -/
def promotionAtomic (steps : List (List Nat × List Nat)) (token : Nat) : Bool :=
  steps.all (fun s => tokenInSome token s && !(tokenInBoth token s))

/-- Closed-flag monotonicity of the handler bodies: a handler that
succeeds never stores `false` into a closed flag that was `true`. -/
def HandlersMonotone (H : Handlers) : Prop :=
  ∀ i c p c2, H i c p = Except.ok c2 → c.closed = true → c2.closed = true

/-! Concrete sample inputs used by witnesses and counterexamples. -/

/-- The configured bind address of the listener. -/
def bindAddr0 : SocketAddr := { ip := 0, port := 25565 }

/-- A peer address distinct from the bind address. -/
def peerAddr0 : SocketAddr := { ip := 19216801, port := 54321 }

/-- A freshly constructed client. -/
def client0 : Client := Client.new 1 bindAddr0

/-- A client that reached the `Login` state. -/
def loginClient0 : Client :=
  { client0 with connection_state := ConnectionState.Login }

/-- First sample raw packet. -/
def samplePacketA : RawPacket := { id := 100, payload := [] }

/-- Second sample raw packet. -/
def samplePacketB : RawPacket := { id := 101, payload := [] }

/-- A client whose queue received `samplePacketA` then `samplePacketB`
through `add_packet`, in that order. -/
def sampleQueuedClient : Client :=
  add_packet (add_packet client0 samplePacketA) samplePacketB

/-- A raw packet whose id belongs to no state's table. -/
def unknownPacket : RawPacket := { id := 99, payload := [] }

/-- A sample kick reason. -/
def reason0 : String := "kicked"

/-! Theorems. -/

/-- The trivial handlers are closed-monotone. -/
theorem trivialHandlersMonotone : HandlersMonotone trivialHandlers := by
  intro i c p c2 h hc
  injection h with h2
  exact h2 ▸ hc

/-- C1: the spec claims `process_packets` dispatches the inbound queue in
FIFO order.  The source drains the queue with `Vec::pop`, which removes
the most recently pushed packet: with `samplePacketA` enqueued before
`samplePacketB`, the dispatch order is B then A — LIFO, refuting FIFO at
this input. -/
theorem process_packets_lifo_bug :
    process_trace trivialHandlers true sampleQueuedClient =
      [samplePacketB, samplePacketA] ∧
    [samplePacketB, samplePacketA] ≠ [samplePacketA, samplePacketB] := by
  exact ⟨by decide, by decide⟩

/-- C2: the spec claims `poll` feeds exactly the n freshly read bytes to
the decoder and then loops `decode()` until `None`.  The source queues
the whole scratch buffer (4096 stale bytes plus n appended zeros, 4100
bytes for n = 4) and calls `decode()` exactly once before clearing the
decoder: a single read delivering the two complete frames
`[1, 5, 1, 5]` enqueues only the first packet, while the spec decode
loop yields both. -/
theorem poll_drops_second_frame_bug :
    decodeAll 4 [1, 5, 1, 5] =
      [{ id := 5, payload := [] }, { id := 5, payload := [] }] ∧
    (poll client0 true [ReadEvent.ok [1, 5, 1, 5]]).client_packets_queue =
      [{ id := 5, payload := [] }] ∧
    (pollFedOnRead (List.replicate 4096 0) [1, 5, 1, 5]).length = 4100 := by
  refine ⟨by decide, by rfl, ?_⟩
  simp only [pollFedOnRead, List.length_append, List.length_drop,
    List.length_replicate, List.length_cons, List.length_nil]

/-- C4 counterexample: called on a fresh client with a 15-byte shared
secret, `enable_encryption` does return `SharedWrongLength`, but the
encryption flag — stored before the length check — is `true` afterwards,
not `false` as the claim states. -/
theorem enable_encryption_flag_counterexample :
    (enable_encryption client0 (List.replicate 15 0)).2 =
      Except.error EncryptionError.SharedWrongLength ∧
    ¬((enable_encryption client0 (List.replicate 15 0)).1.encryption = false) := by
  exact ⟨rfl, by decide⟩

/-- C4 amended: with a slice whose length is not 16,
`enable_encryption` returns `Err(SharedWrongLength)` and installs no key
in either codec half, but sets the encryption flag to `true` (the store
happens before the length check); with a 16-byte slice it returns `Ok`,
sets the flag and installs the key in both halves. -/
theorem enable_encryption_amended (c : Client) (s : List Nat) :
    (s.length ≠ 16 →
      enable_encryption c s =
        ({ c with encryption := true },
          Except.error EncryptionError.SharedWrongLength)) ∧
    (s.length = 16 →
      enable_encryption c s =
        ({ c with
            encryption := true
            dec := { c.dec with key := some s }
            enc := { c.enc with key := some s } }, Except.ok ())) := by
  constructor
  · intro h
    simp [enable_encryption, h]
  · intro h
    simp [enable_encryption, h]

/-- C4 witness: the amended theorem evaluated on a fresh client and a
15-byte secret. -/
theorem enable_encryption_amended_witness :
    enable_encryption client0 (List.replicate 15 0) =
      ({ client0 with encryption := true },
        Except.error EncryptionError.SharedWrongLength) :=
  (enable_encryption_amended client0 (List.replicate 15 0)).1 (by decide)

/-- C9: the spec claims the client constructed for an accepted socket
stores the peer address.  The accept loop passes `addr` — the listener's
configured bind address — to `Client::new`, not the accepted peer
address: at a peer address distinct from the bind address the stored
`address` field is the bind address.  The remaining parts of the claim
(state `HandShake`, encryption off, closed false) do hold. -/
theorem accept_stores_bind_address_bug :
    (acceptClient bindAddr0 peerAddr0 7).address = bindAddr0 ∧
    bindAddr0 ≠ peerAddr0 ∧
    (acceptClient bindAddr0 peerAddr0 7).address ≠ peerAddr0 ∧
    (acceptClient bindAddr0 peerAddr0 7).connection_state =
      ConnectionState.HandShake ∧
    (acceptClient bindAddr0 peerAddr0 7).encryption = false ∧
    (acceptClient bindAddr0 peerAddr0 7).closed = false := by
  refine ⟨rfl, by decide, by decide, rfl, rfl, rfl⟩

/-- C3 counterexample: promoting token 1 with pending map {1} and empty
live map, the observable state after `clients.remove` and before
`players.insert` has the token in neither registry, so the claimed
"never in both or neither" property is false on the code's promotion
sequence. -/
theorem promotion_atomicity_counterexample :
    promotionAtomic (promotionSteps [1] [] 1) 1 = false := by decide

/-- C3 amended: after the promotion sequence the token is absent from
the pending registry and present in the live registry, and at no
observable step is it in both; but between the removal from the pending
map and the insertion into the live map there is an observable step at
which it is in neither. -/
theorem promotion_steps_amended (pending live : List Nat) (token : Nat)
    (hnd : pending.Nodup) (hl : token ∉ live) :
    (∀ s ∈ promotionSteps pending live token, tokenInBoth token s = false) ∧
    tokenInSome token ((promotionSteps pending live token).getD 1 ([], [])) =
      false ∧
    token ∉ ((promotionSteps pending live token).getD 2 ([], [])).1 ∧
    token ∈ ((promotionSteps pending live token).getD 2 ([], [])).2 := by
  have he : token ∉ pending.erase token := fun hmem =>
    ((List.Nodup.mem_erase_iff hnd).1 hmem).1 rfl
  refine ⟨?_, ?_, ?_, ?_⟩
  · intro s hs
    simp only [promotionSteps, List.mem_cons, List.not_mem_nil, or_false]
      at hs
    rcases hs with h | h | h <;> subst h <;> simp [tokenInBoth, hl, he]
  · simp [promotionSteps, tokenInSome, hl, he]
  · simpa [promotionSteps] using he
  · simp [promotionSteps]

/-- C3 witness: the amended theorem evaluated at pending {1}, empty live
map, token 1. -/
theorem promotion_steps_amended_witness :
    tokenInSome 1 ((promotionSteps [1] [] 1).getD 1 ([], [])) = false ∧
    1 ∈ ((promotionSteps [1] [] 1).getD 2 ([], [])).2 :=
  ⟨(promotion_steps_amended [1] [] 1 (by decide) (by decide)).2.1,
    (promotion_steps_amended [1] [] 1 (by decide) (by decide)).2.2.2⟩

/-- C6: for every reason, state and send outcome, `kick` attempts the
state-appropriate disconnect packet (Login: `LoginDisconnect` with the
JSON-serialized reason, Config: `ConfigDisconnect`, Play:
`PlayDisconnect` with a text component, all other states nothing), and
in every case — including a failed send — terminates with the closed
flag true. -/
theorem kick_disconnect_and_close (c : Client) (reason : String)
    (sendOk : Bool) :
    (kick c reason sendOk).client.closed = true ∧
    (c.connection_state = ConnectionState.Login →
      (kick c reason sendOk).attempted =
        some (DisconnectPacket.loginDisconnect (jsonEncode reason))) ∧
    (c.connection_state = ConnectionState.Config →
      (kick c reason sendOk).attempted =
        some (DisconnectPacket.configDisconnect reason)) ∧
    (c.connection_state = ConnectionState.Play →
      (kick c reason sendOk).attempted =
        some (DisconnectPacket.playDisconnect reason)) ∧
    (c.connection_state ≠ ConnectionState.Login →
      c.connection_state ≠ ConnectionState.Config →
      c.connection_state ≠ ConnectionState.Play →
      (kick c reason sendOk).attempted = none) := by
  cases hs : c.connection_state <;> simp [kick, close, hs]

/-- C6 witness: a kick of a `Login`-state client with send succeeding. -/
theorem kick_disconnect_and_close_witness :
    (kick loginClient0 reason0 true).client.closed = true ∧
    (kick loginClient0 reason0 true).attempted =
      some (DisconnectPacket.loginDisconnect (jsonEncode reason0)) :=
  ⟨(kick_disconnect_and_close loginClient0 reason0 true).1,
    (kick_disconnect_and_close loginClient0 reason0 true).2.1 rfl⟩

/-- C7: in any of the states `HandShake`, `Status`, `Login`, `Transfer`,
`Config`, a raw packet whose id is not in that state's id table makes
`handle_packet` return `Ok` without invoking any handler and with the
client — in particular its closed flag and connection state — unchanged,
for every choice of handler bodies. -/
theorem handle_packet_unknown_id_ok (H : Handlers) (c : Client)
    (p : RawPacket)
    (hstate : c.connection_state ∈ [ConnectionState.HandShake,
      ConnectionState.Status, ConnectionState.Login,
      ConnectionState.Transfer, ConnectionState.Config])
    (hid : p.id ∉ idTable c.connection_state) :
    handle_packet H c p = (Except.ok c, none) := by
  cases hs : c.connection_state <;> rw [hs] at hid hstate
  case HandShake =>
    simp only [idTable, List.mem_cons, List.not_mem_nil, or_false] at hid
    simp [handle_packet, hs, hid]
  case Status =>
    simp only [idTable, List.mem_cons, List.not_mem_nil, or_false, not_or]
      at hid
    simp [handle_packet, hs, hid.1, hid.2]
  case Login =>
    simp only [idTable, List.mem_cons, List.not_mem_nil, or_false, not_or]
      at hid
    simp [handle_packet, hs, hid.1, hid.2.1, hid.2.2.1, hid.2.2.2]
  case Transfer =>
    simp only [idTable, List.mem_cons, List.not_mem_nil, or_false, not_or]
      at hid
    simp [handle_packet, hs, hid.1, hid.2.1, hid.2.2.1, hid.2.2.2]
  case Config =>
    simp only [idTable, List.mem_cons, List.not_mem_nil, or_false, not_or]
      at hid
    simp [handle_packet, hs, hid.1, hid.2.1, hid.2.2.1, hid.2.2.2]
  case Play =>
    simp at hstate

/-- C7 witness: a packet with id 99 in the `HandShake` state is dropped
with the client unchanged. -/
theorem handle_packet_unknown_id_ok_witness :
    handle_packet trivialHandlers client0 unknownPacket =
      (Except.ok client0, none) :=
  handle_packet_unknown_id_ok trivialHandlers client0 unknownPacket
    (by decide) (by decide)

/-- Helper: a successful `handle_packet` preserves a true closed flag
when the handler bodies do. -/
theorem handle_packet_ok_closed (H : Handlers) (hH : HandlersMonotone H)
    (c c2 : Client) (p : RawPacket)
    (h : (handle_packet H c p).1 = Except.ok c2) (hc : c.closed = true) :
    c2.closed = true := by
  unfold handle_packet at h
  cases hs : c.connection_state <;> rw [hs] at h <;> repeat' split at h
  all_goals
    first
      | exact hH _ _ _ _ h hc
      | (injection h with h2; exact h2 ▸ hc)

/-- Helper: the `process_packets` loop preserves a true closed flag when
the handler bodies do (a handler error only kicks, which closes). -/
theorem process_fuel_closed (H : Handlers) (hH : HandlersMonotone H)
    (sendOk : Bool) :
    ∀ fuel (c : Client), c.closed = true →
      (process_fuel H sendOk fuel c).1.closed = true := by
  intro fuel
  induction fuel with
  | zero => intro c hc; exact hc
  | succ f ih =>
    intro c hc
    unfold process_fuel
    rcases hq : vecPop c.client_packets_queue with _ | ⟨p, rest⟩
    · exact hc
    · dsimp only
      cases hh : (handle_packet H { c with client_packets_queue := rest } p).1
        with
      | error e => exact ih _ rfl
      | ok c2 => exact ih c2 (handle_packet_ok_closed H hH _ c2 p hh hc)

/-- C5: the closed flag is monotone non-decreasing: it is false at
construction, and none of the `Client` operations (`new`, `poll`, `kick`,
`close`, `send_packet`, `process_packets`, `enable_encryption`,
`set_compression`) stores `false` into it once it is `true` (for
`process_packets`, provided the — externally defined — handler bodies
are themselves closed-monotone). -/
theorem closed_flag_monotone (idn : Nat) (a : SocketAddr) (c : Client)
    (reason : String) (sendOk encodeOk writeOk : Bool)
    (events : List ReadEvent) (secret : List Nat)
    (compression : Option (Nat × Nat)) (H : Handlers)
    (hH : HandlersMonotone H) (hc : c.closed = true) :
    (Client.new idn a).closed = false ∧
    (close c).closed = true ∧
    (kick c reason sendOk).client.closed = true ∧
    (send_packet c encodeOk writeOk).closed = true ∧
    (poll c sendOk events).closed = true ∧
    (process_packets H sendOk c).closed = true ∧
    (enable_encryption c secret).1.closed = true ∧
    (set_compression c compression).closed = true := by
  refine ⟨rfl, rfl, rfl, ?_, ?_, ?_, ?_, hc⟩
  · cases encodeOk <;> cases writeOk <;> simp [send_packet, kick, close, hc]
  · cases events with
    | nil => exact hc
    | cons e es => simp [poll, pollGo, hc]
  · exact process_fuel_closed H hH sendOk _ c hc
  · unfold enable_encryption
    split <;> exact hc

/-- C5 witness: the monotonicity theorem evaluated on a closed client
with the trivial handler bodies. -/
theorem closed_flag_monotone_witness :
    (process_packets trivialHandlers true (close client0)).closed = true ∧
    (Client.new 2 bindAddr0).closed = false :=
  ⟨(closed_flag_monotone 2 bindAddr0 (close client0) reason0 true true true
      [] [] none trivialHandlers trivialHandlersMonotone rfl).2.2.2.2.2.1,
    (closed_flag_monotone 2 bindAddr0 (close client0) reason0 true true true
      [] [] none trivialHandlers trivialHandlersMonotone rfl).1⟩

/-- Helper: membership in the recipients of `broadcast_packet_expect`. -/
theorem broadcast_expect_mem (players : List (Nat × Nat))
    (except : List Nat) (t : Nat) :
    t ∈ broadcast_packet_expect except players ↔
      t ∈ keysOf players ∧ t ∉ except := by
  unfold broadcast_packet_expect keysOf
  constructor
  · intro h
    rcases List.mem_map.1 h with ⟨kv, hkv, hfst⟩
    rcases List.mem_filter.1 hkv with ⟨hmem, hpred⟩
    subst hfst
    refine ⟨List.mem_map_of_mem _ hmem, ?_⟩
    simpa using hpred
  · rintro ⟨hmem, hnot⟩
    rcases List.mem_map.1 hmem with ⟨kv, hkv, hfst⟩
    subst hfst
    exact List.mem_map_of_mem _
      (List.mem_filter.2 ⟨hkv, by simpa using hnot⟩)

/-- Helper: the recipients of `broadcast_packet_expect` are distinct when
the player map keys are. -/
theorem broadcast_expect_nodup (players : List (Nat × Nat))
    (except : List Nat) (hnd : (keysOf players).Nodup) :
    (broadcast_packet_expect except players).Nodup :=
  hnd.sublist (List.Sublist.map Prod.fst (List.filter_sublist players))

/-- C8: with distinct tokens, `broadcast_packet_expect` sends exactly one
copy to each live player whose token is not in the exclusion list and
none to an excluded player, and `broadcast_packet_all` sends exactly one
copy to every live player. -/
theorem broadcast_packet_counts (players : List (Nat × Nat))
    (except : List Nat) (t : Nat) (hnd : (keysOf players).Nodup) :
    (broadcast_packet_expect except players).count t =
      (if t ∈ keysOf players ∧ t ∉ except then 1 else 0) ∧
    (broadcast_packet_all players).count t =
      (if t ∈ keysOf players then 1 else 0) := by
  constructor
  · by_cases h : t ∈ keysOf players ∧ t ∉ except
    · rw [if_pos h]
      exact List.count_eq_one_of_mem
        (broadcast_expect_nodup players except hnd)
        ((broadcast_expect_mem players except t).2 h)
    · rw [if_neg h]
      exact List.count_eq_zero_of_not_mem
        (fun hmem => h ((broadcast_expect_mem players except t).1 hmem))
  · by_cases h : t ∈ keysOf players
    · rw [if_pos h]
      exact List.count_eq_one_of_mem hnd h
    · rw [if_neg h]
      exact List.count_eq_zero_of_not_mem h

/-- C8 witness: the spec scenario — players A=1, B=2, C=3,
`broadcast_except([2], P)`: A gets one copy, B gets none. -/
theorem broadcast_packet_counts_witness :
    (broadcast_packet_expect [2] [(1, 10), (2, 20), (3, 30)]).count 1 = 1 ∧
    (broadcast_packet_expect [2] [(1, 10), (2, 20), (3, 30)]).count 2 = 0 := by
  have h1 :=
    (broadcast_packet_counts [(1, 10), (2, 20), (3, 30)] [2] 1 (by decide)).1
  have h2 :=
    (broadcast_packet_counts [(1, 10), (2, 20), (3, 30)] [2] 2 (by decide)).1
  exact ⟨h1.trans (by decide), h2.trans (by decide)⟩

/-- Helper: `HashMap::remove` misses when the key is absent. -/
theorem hmRemove_not_mem {α : Type} (m : List (Nat × α)) (key : Nat)
    (h : key ∉ keysOf m) : hmRemove m key = none := by
  induction m with
  | nil => rfl
  | cons kv rest ih =>
    obtain ⟨k, v⟩ := kv
    simp only [keysOf, List.map_cons, List.mem_cons, not_or] at h
    unfold hmRemove
    rw [if_neg (fun hh => h.1 hh.symm), ih h.2]

/-- Helper: with distinct keys, `HashMap::remove` on a present key
removes exactly that entry. -/
theorem hmRemove_mem {α : Type} (m : List (Nat × α)) (key : Nat)
    (hnd : (keysOf m).Nodup) (h : key ∈ keysOf m) :
    ∃ v, hmRemove m key =
      some (v, m.filter (fun kv => !(kv.fst == key))) := by
  induction m with
  | nil => simp [keysOf] at h
  | cons kv rest ih =>
    obtain ⟨k, v⟩ := kv
    have hndc : (k :: List.map Prod.fst rest).Nodup := by
      simpa only [keysOf, List.map_cons] using hnd
    have hnd2 := List.nodup_cons.1 hndc
    by_cases hk : k = key
    · subst hk
      refine ⟨v, ?_⟩
      unfold hmRemove
      rw [if_pos rfl]
      have hfix : List.filter (fun kv => !(kv.fst == k)) rest = rest :=
        List.filter_eq_self.mpr (fun a ha => by
          have hne : a.fst ≠ k :=
            fun he => hnd2.1 (he ▸ List.mem_map_of_mem Prod.fst ha)
          simp [hne])
      simp [List.filter_cons, hfix]
    · have h2 : key ∈ keysOf rest := by
        rcases (by simpa only [keysOf, List.map_cons, List.mem_cons] using h :
          key = k ∨ key ∈ List.map Prod.fst rest) with hkk | h2
        · exact absurd hkk.symm hk
        · exact h2
      rcases ih hnd2.2 h2 with ⟨v2, hv2⟩
      refine ⟨v2, ?_⟩
      unfold hmRemove
      rw [if_neg hk, hv2]
      have hpred : (fun kv => !(kv.fst == key)) (k, v) = true := by
        simp [hk]
      simp [List.filter_cons, hpred]

/-- C10: with distinct tokens in the live-player map, `remove_player` on
a present token returns without panicking and removes exactly that
entry; on an absent token the `unwrap` panics. -/
theorem remove_player_spec (m : List (Nat × Nat)) (idn : Nat)
    (hnd : (keysOf m).Nodup) :
    (idn ∈ keysOf m →
      remove_player m idn =
        Except.ok (m.filter (fun kv => !(kv.fst == idn)))) ∧
    (idn ∉ keysOf m →
      remove_player m idn =
        Except.error ("called Option unwrap on a None value")) := by
  constructor
  · intro h
    rcases hmRemove_mem m idn hnd h with ⟨v, hv⟩
    unfold remove_player
    rw [hv]
  · intro h
    unfold remove_player
    rw [hmRemove_not_mem m idn h]

/-- C10 witness: removing present token 1 from {1 ↦ 10, 2 ↦ 20} yields
{2 ↦ 20}; removing absent token 3 panics. -/
theorem remove_player_spec_witness :
    remove_player [(1, 10), (2, 20)] 1 = Except.ok [(2, 20)] ∧
    remove_player [(1, 10), (2, 20)] 3 =
      Except.error ("called Option unwrap on a None value") := by
  have h1 := (remove_player_spec [(1, 10), (2, 20)] 1 (by decide)).1 (by decide)
  have h2 := (remove_player_spec [(1, 10), (2, 20)] 3 (by decide)).2 (by decide)
  exact ⟨h1.trans (by rfl), h2⟩

end Pumpkin
